import Mathlib

/-!
Shallow embedding of the CortexIA personal note-assistant bot
(`assistent.py`, `note_manager.py`, `prompt_manager.py`, `interface.py`).

Text is modelled as `List Char`.  The Python source file is doubly
UTF-8 encoded, so some of its string literals contain mojibake
(e.g. the word written as `está` appears in the running program as the
two characters U+00C3 U+00A1); the embedded literals below reproduce the
characters the Python interpreter actually sees, using `\u` escapes for
every non-ASCII character.

Side effects are made explicit: file reads/writes become parameters
(`FileState`, a `writeOk` flag, an `Env` record for the prompt files and
the HTTP endpoint), `datetime.now()` becomes a `now : Nat` argument, and
a Python exception escaping a function is an `Except.error` / a `crash`
outcome.
-/

namespace CortexIA

/-- Program text: a Python `str` as its sequence of characters. -/
abbrev Str := List Char

/-- Shorthand to write character-list literals. -/
def str (x : String) : Str := x.data

/-! Section: Language heuristic (`assistent.py`, `is_english`) -/

/-- The set `english_words` from `assistent.py` line 400. -/
def englishWords : List Str :=
  [str ("the"), str ("and"), str ("is"), str ("are"), str ("was"), str ("were"),
   str ("have"), str ("has"), str ("had"), str ("this"), str ("that"),
   str ("these"), str ("those"), str ("what"), str ("when"), str ("where"),
   str ("why"), str ("how"), str ("who"), str ("which")]

/-- The set `spanish_words` from `assistent.py` line 401.  The accented entries are
the mojibake forms present in the running program (the source file is
doubly UTF-8 encoded). -/
def spanishWords : List Str :=
  [str ("el"), str ("la"), str ("los"), str ("las"), str ("es"), str ("son"),
   str ("estÃ¡"), str ("estÃ¡n"), str ("tiene"),
   str ("tienen"), str ("este"), str ("esta"), str ("estos"), str ("estas"),
   str ("quÃ©"), str ("cuÃ¡ndo"), str ("dÃ³nde"),
   str ("por quÃ©"), str ("cÃ³mo"), str ("quiÃ©n")]

/-- Python `str.lower()`, on the ASCII and Latin-1 letter ranges (the only
characters the program's inputs and word sets contain). -/
def pyLowerChar (c : Char) : Char :=
  if 65 ≤ c.toNat ∧ c.toNat ≤ 90 then Char.ofNat (c.toNat + 32)
  else if (192 ≤ c.toNat ∧ c.toNat ≤ 222) ∧ c.toNat ≠ 215 then Char.ofNat (c.toNat + 32)
  else c

/-- The characters Python `str.split()` (no argument) splits on. -/
def isPySpace (c : Char) : Bool :=
  c == ' ' || c == '\t' || c == '\n' || c == '\r' || c == '\x0b' || c == '\x0c'

/-- Accumulator-based worker for `pySplit`. -/
def pySplitAux : Str → Str → List Str
  | [], acc => if acc.isEmpty then [] else [acc.reverse]
  | c :: rest, acc =>
      if isPySpace c then
        if acc.isEmpty then pySplitAux rest [] else acc.reverse :: pySplitAux rest []
      else pySplitAux rest (c :: acc)

/-- Python `str.split()`: whitespace-tokenize, discarding empty fields. -/
def pySplit (t : Str) : List Str := pySplitAux t []

/-- Embeds `sum(1 for word in words if word in vocab)`. -/
def countIn (ws vocab : List Str) : Nat :=
  (ws.filter (fun w => vocab.contains w)).length

/-- Number of recognized English words in the lower-cased, tokenized text. -/
def englishCount (t : Str) : Nat :=
  countIn (pySplit (t.map pyLowerChar)) englishWords

/-- Number of recognized Spanish words in the lower-cased, tokenized text. -/
def spanishCount (t : Str) : Nat :=
  countIn (pySplit (t.map pyLowerChar)) spanishWords

/-- The detector `is_english` from `assistent.py` lines 397-411. -/
def is_english (t : Str) : Bool :=
  decide (spanishCount t < englishCount t)

/-! Section: Store (`NoteManager._load_json`, both variants) -/

/-- Condition of a collection file on disk, as seen by one `load` call. -/
inductive FileState (α : Type) where
  | missing
  | malformed
  | good (data : List α)
deriving DecidableEq

/-- Embeds `_load_json`: `try: json.load(open(path))` / `except: log; return []`.
Total — a read or parse failure is degraded to `[]`, never raised. -/
def load_json {α : Type} : FileState α → List α
  | .good d => d
  | .missing => []
  | .malformed => []

/-! Section: Prompt Provider (`prompt_manager.py`, `PromptManager`) -/

/-- The singleton base-prompt record `{role, content}`. -/
structure BasePromptRec where
  role : Str
  content : Str
deriving DecidableEq

/-- In-memory (`self.base_prompt`) and on-disk copies of the base prompt. -/
structure PromptState where
  base_prompt : BasePromptRec
  disk_base_prompt : BasePromptRec
deriving DecidableEq

/-- One `f"{k}: {v}"` line of the additional-context block. -/
def kvLine (kv : Str × Str) : Str := kv.1 ++ str (": ") ++ kv.2

/-- Embeds `"\n".join(lines)`. -/
def joinLines : List Str → Str
  | [] => []
  | [x] => x
  | x :: rest => x ++ ['\n'] ++ joinLines rest

/-- Embeds `PromptManager.get_prompt` (lines 49-58): a copy of the base prompt;
truthy extra context appends a formatted block to `content`. -/
def get_prompt (st : PromptState) (additional : List (Str × Str)) : BasePromptRec :=
  if additional.isEmpty then st.base_prompt
  else
    let ctxStr := joinLines ((additional.filter (fun kv => !kv.2.isEmpty)).map kvLine)
    if ctxStr.isEmpty then st.base_prompt
    else { st.base_prompt with
           content := st.base_prompt.content ++ str ("\n\nCurrent context:\n") ++ ctxStr }

/-- Embeds `PromptManager.update_base_prompt` (lines 60-69).  The in-memory
`content` is replaced first; only then is the file written.  `writeOk`
models whether `open`/`json.dump` succeed; on failure the `except` block
returns `False`, but the in-memory mutation is not rolled back. -/
def update_base_prompt (st : PromptState) (new_content : Str) (writeOk : Bool) :
    Bool × PromptState :=
  let mem := { st.base_prompt with content := new_content }
  if writeOk then (true, { base_prompt := mem, disk_base_prompt := mem })
  else (false, { st with base_prompt := mem })

/-! Section: Language-Model Gateway (`assistent.py`, `process_with_ai`) -/

/-- The directive `"Respond in English only, without translations."` (line 542). -/
def langInstructionEn : Str := str ("Respond in English only, without translations.")

/-- The Spanish language directive (line 542, mojibake as in the program). -/
def langInstructionEs : Str :=
  str ("Responde en espaÃ±ol Ãºnicamente, sin traducciones.")

/-- The English apology string (lines 571 and 903). -/
def apologyEn : Str :=
  str ("Sorry, I had a problem processing your message. Could you try again?")

/-- The Spanish apology string (lines 571 and 903, mojibake as in the
program). -/
def apologyEs : Str :=
  str ("Lo siento, tuve un problema al procesar tu mensaje. Â¿PodrÃ­as intentarlo de nuevo?")

/-- The apology chosen by the language heuristic. -/
def apology (engl : Bool) : Str := if engl then apologyEn else apologyEs

/-- External collaborators of one event-handling call: the configured
authorized user id, the prompt files (`none` models `PromptManager`
raising while loading them, see `prompt_manager.py` lines 44-47), and
the generation endpoint (`none` models a transport or response-parse
failure of the request). -/
structure Env where
  authId : Nat
  basePrompt : Option Str
  respond : Str → Option Str

/-- The complete prompt built by `process_with_ai` (lines 545-552). -/
def composedPrompt (bp : Str) (engl : Bool) (ctx msg : Str) : Str :=
  bp ++ str ("\n\n")
    ++ (if engl then langInstructionEn else langInstructionEs) ++ str ("\n\n")
    ++ (if ctx.isEmpty then [] else str ("Additional context:\n") ++ ctx ++ str ("\n\n"))
    ++ str ("User: ") ++ msg ++ str ("\n\nAssistant:")

/-- Embeds `process_with_ai` (lines 530-572).  If loading the base prompt raises,
the exception is caught by `except Exception`, but the handler then reads
`is_english_text`, which is only assigned after the prompt is loaded —
an `UnboundLocalError` escapes (`Except.error ()`).  A failure of the
HTTP request or of parsing its response happens after `is_english_text`
is bound, so it is converted into the localized apology. -/
def process_with_ai (env : Env) (message ctx : Str) : Except Unit Str :=
  match env.basePrompt with
  | none => Except.error ()
  | some bp =>
      let engl := is_english message
      match env.respond (composedPrompt bp engl ctx message) with
      | some r => Except.ok r
      | none => Except.ok (apology engl)

/-! Section: Entity Manager (`assistent.py`, `class NoteManager`)

This is the `NoteManager` variant the bot actually instantiates
(`note_manager = NoteManager()` in `assistent.py`); the homonymous class
in `note_manager.py` is never imported by the bot. -/

/-- A record of the `notes.json` collection.  `create_idea` stores no
`project_id` key and tags the record with `"type": "idea"`; `isIdea`
models the presence of that tag and `project_id = none` the absent key. -/
structure Note where
  id : Str
  content : Str
  created : Nat
  project_id : Option Str
  updated : Option Nat
  isIdea : Bool
deriving DecidableEq

/-- A record of the `projects.json` collection ( `id` is the title). -/
structure Project where
  id : Str
  title : Str
  created : Nat
deriving DecidableEq

/-- A record of the append-only `refined.json` collection. -/
structure RefinedNote where
  id : Str
  original_content : Str
  refined_content : Str
  created : Nat
  project_id : Option Str
deriving DecidableEq

/-- The three collection files the manager reads and rewrites in full. -/
structure ManagerState where
  notes : List Note
  projects : List Project
  refined : List RefinedNote
deriving DecidableEq

/-- Python `note["id"].startswith(prefix)`. -/
def strStarts (l pfx : Str) : Bool := decide (l.take pfx.length = pfx)

/-- Whether `c` is one of `'0'`..`'9'`. -/
def isDigitCh (c : Char) : Bool := 48 ≤ c.toNat && c.toNat ≤ 57

/-- Numeric value of a digit character. -/
def chVal (c : Char) : Nat := c.toNat - 48

/-- Horner evaluation of a big-endian digit string. -/
def valNat (l : Str) : Nat := l.foldl (fun acc c => 10 * acc + chVal c) 0

/-- Python `int(s)` on an unsigned candidate: defined exactly on nonempty
all-digit strings. -/
def digitsVal? (l : Str) : Option Nat :=
  if l.isEmpty then none
  else if l.all isDigitCh then some (valNat l) else none

/-- Python `int(s)` (`None` models `ValueError`): an optional leading
minus sign followed by digits. -/
def pyInt? (l : Str) : Option Int :=
  if l.head? = some '-' then (digitsVal? l.tail).map (fun n => -(n : Int))
  else (digitsVal? l).map (fun n => (n : Int))

/-- Fuel-driven decimal rendering: digits of `n`, big-endian. -/
def natDigitsAux : Nat → Nat → Str
  | 0, _ => []
  | fuel + 1, n =>
      if n = 0 then []
      else natDigitsAux fuel (n / 10) ++ [Nat.digitChar (n % 10)]

/-- Python `str(n)` for a natural number. -/
def natDigits (n : Nat) : Str := if n = 0 then ['0'] else natDigitsAux n n

/-- Python `f"{i}"` for an integer. -/
def intRepr (i : Int) : Str :=
  if i < 0 then '-' :: natDigits i.natAbs else natDigits i.toNat

/-- One iteration of the loop in `NoteManager._get_next_id`: ids sharing
the prefix contribute their integer suffix to the running maximum; ids
whose suffix is not an integer are skipped (`except ValueError`). -/
def nextIdStep (pfx : Str) (acc : Int) (nt : Note) : Int :=
  if strStarts nt.id pfx then
    match pyInt? (nt.id.drop pfx.length) with
    | some k => max acc k
    | none => acc
  else acc

/-- The loop of `NoteManager._get_next_id` (lines 90-103), starting from
`max_id = 0`. -/
def next_id_max (pfx : Str) (notes : List Note) : Int :=
  notes.foldl (nextIdStep pfx) 0

/-- Embeds `NoteManager._get_next_id`: `f"{prefix}{max_id + 1}"`. -/
def get_next_id (pfx : Str) (notes : List Note) : Str :=
  pfx ++ intRepr (next_id_max pfx notes + 1)

/-- Python truthiness of the `project_id` argument (`if project_id:`):
`None` and the empty string are falsy. -/
def pyTruthy : Option Str → Bool
  | none => false
  | some t => !t.isEmpty

/-- Embeds `NoteManager.create_note` (lines 105-128). -/
def create_note (st : ManagerState) (now : Nat) (content : Str)
    (project_id : Option Str) : Note × ManagerState :=
  let pfx := if pyTruthy project_id then str ("projectnote") else str ("note")
  let note : Note :=
    { id := get_next_id pfx st.notes, content := content, created := now,
      project_id := project_id, updated := none, isIdea := false }
  (note, { st with notes := st.notes ++ [note] })

/-- Embeds `NoteManager.create_idea` (lines 130-147): stored in the same
collection under the `idea` prefix, tagged `"type": "idea"`. -/
def create_idea (st : ManagerState) (now : Nat) (content : Str) :
    Note × ManagerState :=
  let note : Note :=
    { id := get_next_id (str ("idea")) st.notes, content := content,
      created := now, project_id := none, updated := none, isIdea := true }
  (note, { st with notes := st.notes ++ [note] })

/-- First record with the given id (`for note in notes: if note["id"] == ...`). -/
def findNote : List Note → Str → Option Note
  | [], _ => none
  | n :: rest, nid => if n.id = nid then some n else findNote rest nid

/-- Embeds `NoteManager.get_note` (lines 149-155). -/
def get_note (st : ManagerState) (nid : Str) : Option Note :=
  findNote st.notes nid

/-- First project with the given id. -/
def findProject : List Project → Str → Option Project
  | [], _ => none
  | p :: rest, pid => if p.id = pid then some p else findProject rest pid

/-- Embeds `NoteManager.get_project` (lines 190-196). -/
def get_project (st : ManagerState) (pid : Str) : Option Project :=
  findProject st.projects pid

/-- Embeds `NoteManager.create_project` (lines 163-188): the title is the id;
if a project with that id exists it is returned unchanged. -/
def create_project (st : ManagerState) (now : Nat) (title : Str) :
    Project × ManagerState :=
  match findProject st.projects title with
  | some p => (p, st)
  | none =>
      let p : Project := { id := title, title := title, created := now }
      (p, { st with projects := st.projects ++ [p] })

/-- Embeds `NoteManager.get_notes_by_project` (lines 202-205):
`note.get("project_id") == project_id`. -/
def get_notes_by_project (st : ManagerState) (pid : Str) : List Note :=
  st.notes.filter (fun n => n.project_id = some pid)

/-- In-place mutation of the first record matching `nid` (the loop in
`update_note` mutates the object found by the first-match scan). -/
def updateFirst (notes : List Note) (nid : Str) (f : Note → Note) : List Note :=
  match notes with
  | [] => []
  | n :: rest => if n.id = nid then f n :: rest else n :: updateFirst rest nid f

/-- Embeds `NoteManager.update_note` (lines 207-239): if the id is found, append
a `RefinedNote` snapshot of the pre-update content to `refined.json`,
then overwrite the note's `content` and stamp `updated`; otherwise
return `False` with nothing written. -/
def update_note (st : ManagerState) (now : Nat) (nid newContent : Str) :
    Bool × ManagerState :=
  match findNote st.notes nid with
  | none => (false, st)
  | some orig =>
      (true,
       { st with
         refined := st.refined ++
           [{ id := nid, original_content := orig.content,
              refined_content := newContent, created := now,
              project_id := orig.project_id }],
         notes := updateFirst st.notes nid
           (fun n => { n with content := newContent, updated := some now }) })

/-- One `create_note` request: creation instant, content, project id. -/
abbrev CreateReq := Nat × Str × Option Str

/-- A sequence of `create_note` calls, collecting the returned ids. -/
def run_creates : ManagerState → List CreateReq → List Str × ManagerState
  | st, [] => ([], st)
  | st, (now, content, pid) :: rest =>
      let r := create_note st now content pid
      let rest' := run_creates r.2 rest
      (r.1.id :: rest'.1, rest'.2)

/-! Section: Conversation Router (`assistent.py`, `handle_callback` / `handle_message`)

`user_states` is a process-wide dict from user id to a Python value that
is either `None`, a plain string, or a dict tagged by its `"state"` key.
`PyVal` models the non-`None` values; an absent key, a key mapped to
`None`, and a key mapped to a `PyVal` are distinguished by
`Option (Option PyVal)`. -/

/-- A non-`None` value stored in `user_states`. -/
inductive PyVal where
  | pstr (v : Str)
  | pdict (state : Str) (project_id : Option Str) (note_id : Option Str)
      (ctx : Option Str)
deriving DecidableEq

/-- Python `state == "<literal>"`: `None` and dicts never equal a string. -/
def pyEqStr : Option PyVal → Str → Bool
  | some (.pstr v), t => decide (v = t)
  | _, _ => false

/-- The screen a handler renders (payloads record the embedded ids; the
full Spanish button/label text is not modelled). -/
inductive ScreenTag where
  | mainMenu
  | basePromptView
  | editBasePromptScreen
  | askNote
  | askIdea
  | projectsMenu
  | askProjectName
  | projectView (pid : Str)
  | projectNotFound
  | askProjectNote (pid : Str)
  | askRefinement
  | confirmRefine (nid : Str)
  | refinedResult (nid : Str)
  | cancelledScreen
  | projectChatIntro (pid : Str)
  | projectNoNotes (pid : Str)
  | helpMenu
  | helpTopic (t : Str)
  | notesMenu
  | noteView (nid : Str)
  | noteNotFound
  | savedNote (nid : Str)
  | savedIdea (nid : Str)
  | projectCreated (title : Str)
  | savedProjectNote (nid pid : Str)
deriving DecidableEq

/-- Observable outcome of handling one event.  `noReply` is a handler
falling through every branch without replying; `crash` is an uncaught
Python exception escaping the handler. -/
inductive Reply where
  | denied
  | screen (t : ScreenTag)
  | message (t : Str)
  | noReply
  | crash
deriving DecidableEq

/-- Entity-Manager and Gateway invocations performed by one event. -/
inductive Op where
  | opCreateNote
  | opCreateIdea
  | opCreateProject
  | opGetProject
  | opGetProjects
  | opGetNote
  | opGetRecentNotes
  | opGetNotesByProject
  | opUpdateNote
  | opGenerate
deriving DecidableEq

/-- Process-wide mutable state of the bot: the `user_states` dict, the
collection files, and telegram's per-user `context.user_data` flag set
by `edit_base_prompt`. -/
structure BotState where
  userStates : Nat → Option (Option PyVal)
  mgr : ManagerState
  editingBasePrompt : Nat → Bool

/-- Python `user_states[uid] = v`. -/
def setUS (m : Nat → Option (Option PyVal)) (uid : Nat) (v : Option PyVal) :
    Nat → Option (Option PyVal) :=
  fun u => if u = uid then some v else m u

/-- Python `data.split("_")` (separator split, empty fields kept). -/
def splitSep (sep : Char) : Str → List Str
  | [] => [[]]
  | c :: rest =>
      if c = sep then [] :: splitSep sep rest
      else
        match splitSep sep rest with
        | [] => [[c]]
        | w :: ws => (c :: w) :: ws

/-- Python `data.split("_")`. -/
def splitU (data : Str) : List Str := splitSep '_' data

/-- The fixed refine instruction of `confirm_refine_<id>` (line 737,
mojibake as in the program). -/
def refineInstruction : Str :=
  str ("Refina el siguiente texto para hacerlo mÃ¡s claro y conciso, manteniendo su significado principal. Si estÃ¡ en espaÃ±ol, refÃ­nalo en espaÃ±ol. Si estÃ¡ en inglÃ©s, refÃ­nalo en inglÃ©s.")

/-- The context text built by `ask_project_<pid>` (lines 764-768); the
source wraps the title in straight quotes (written `\x27` here). -/
def projectContextText (p : Project) (pnotes : List Note) : Str :=
  str ("Estoy trabajando en un proyecto llamado \x27") ++ p.title
    ++ str ("\x27. AquÃ­ estÃ¡n las notas del proyecto:\n\n")
    ++ (pnotes.map (fun n =>
          str ("Nota #") ++ n.id ++ str (":\n") ++ n.content ++ str ("\n\n"))).flatten
    ++ str ("Estoy listo para responder preguntas sobre este proyecto basado en estas notas.")

/-- The `ask_project_<pid>` action (lines 756-784), also reached through
the `chat_project_<pid>` compatibility redirect: with notes present it
enters `project_chat`; with none it shows a hint; with no such project
it falls through silently (`if project:` has no else). -/
def askProjectAction (st : BotState) (uid : Nat) (pid : Str) :
    BotState × Reply × List Op :=
  match get_project st.mgr pid with
  | some p =>
      let pnotes := get_notes_by_project st.mgr pid
      if pnotes.isEmpty then
        (st, .screen (.projectNoNotes pid), [.opGetProject, .opGetNotesByProject])
      else
        let chatState : Option PyVal :=
          some (.pdict (str ("project_chat")) (some pid) none
            (some (projectContextText p pnotes)))
        ({ st with userStates := setUS st.userStates uid chatState },
         .screen (.projectChatIntro pid), [.opGetProject, .opGetNotesByProject])
  | none => (st, .noReply, [.opGetProject])

/-- Embeds `handle_callback` (lines 574-839): the authorization gate, then the
string-matching dispatch chain in source order. -/
def handle_callback (env : Env) (st : BotState) (uid : Nat) (data : Str)
    (now : Nat) : BotState × Reply × List Op :=
  if uid ≠ env.authId then (st, .denied, [])
  else if data = str ("menu_main") then
    ({ st with userStates := setUS st.userStates uid none }, .screen .mainMenu, [])
  else if data = str ("base_prompt") then
    match env.basePrompt with
    | some _ => (st, .screen .basePromptView, [])
    | none => (st, .crash, [])
  else if data = str ("edit_base_prompt") then
    ({ st with editingBasePrompt := fun u => if u = uid then true else st.editingBasePrompt u },
     .screen .editBasePromptScreen, [])
  else if data = str ("new_note") then
    ({ st with userStates := setUS st.userStates uid (some (.pstr (str ("waiting_for_note")))) },
     .screen .askNote, [])
  else if data = str ("new_idea") then
    ({ st with userStates := setUS st.userStates uid (some (.pstr (str ("waiting_for_idea")))) },
     .screen .askIdea, [])
  else if data = str ("menu_projects") then
    (st, .screen .projectsMenu, [.opGetProjects])
  else if data = str ("new_project") then
    ({ st with userStates := setUS st.userStates uid (some (.pstr (str ("waiting_for_project_name")))) },
     .screen .askProjectName, [])
  else if strStarts data (str ("project_")) then
    let pid := (splitU data).getD 1 []
    match get_project st.mgr pid with
    | some _ => (st, .screen (.projectView pid), [.opGetProject, .opGetNotesByProject])
    | none => (st, .screen .projectNotFound, [.opGetProject, .opGetProjects])
  else if strStarts data (str ("new_project_note_")) then
    let pid := (splitU data).getD 3 []
    match get_project st.mgr pid with
    | some _ =>
        let pnState : Option PyVal :=
          some (.pdict (str ("waiting_for_project_note")) (some pid) none none)
        ({ st with userStates := setUS st.userStates uid pnState },
         .screen (.askProjectNote pid), [.opGetProject])
    | none => (st, .screen .projectNotFound, [.opGetProject, .opGetProjects])
  else if data = str ("refine_message") then
    let rfState : Option PyVal :=
      some (.pdict (str ("waiting_for_refinement")) none none none)
    ({ st with userStates := setUS st.userStates uid rfState },
     .screen .askRefinement, [])
  else if strStarts data (str ("refine_note_")) then
    let nid := (splitU data).getD 2 []
    match get_note st.mgr nid with
    | some _ =>
        let rnState : Option PyVal :=
          some (.pdict (str ("waiting_for_refinement")) none (some nid) none)
        ({ st with userStates := setUS st.userStates uid rnState },
         .screen (.confirmRefine nid), [.opGetNote])
    | none => (st, .noReply, [.opGetNote])
  else if strStarts data (str ("confirm_refine_")) then
    let nid := (splitU data).getD 2 []
    match get_note st.mgr nid with
    | some note =>
        match process_with_ai env note.content refineInstruction with
        | .ok refined =>
            let r := update_note st.mgr now nid refined
            ({ st with mgr := r.2 }, .screen (.refinedResult nid),
             [.opGetNote, .opGenerate, .opUpdateNote])
        | .error _ => (st, .crash, [.opGetNote, .opGenerate])
    | none => (st, .noReply, [.opGetNote])
  else if data = str ("cancel") then
    ({ st with userStates := setUS st.userStates uid none }, .screen .cancelledScreen, [])
  else if strStarts data (str ("ask_project_")) then
    askProjectAction st uid ((splitU data).getD 2 [])
  else if data = str ("help") then (st, .screen .helpMenu, [])
  else if strStarts data (str ("help_")) then
    (st, .screen (.helpTopic ((splitU data).getD 1 [])), [])
  else if data = str ("menu_notes") then (st, .screen .notesMenu, [.opGetRecentNotes])
  else if strStarts data (str ("note_")) then
    let nid := (splitU data).getD 1 []
    match get_note st.mgr nid with
    | some _ => (st, .screen (.noteView nid), [.opGetNote])
    | none => (st, .screen .noteNotFound, [.opGetNote])
  else if strStarts data (str ("chat_project_")) then
    askProjectAction st uid ((splitU data).getD 2 [])
  else (st, .noReply, [])

/-- Embeds `handle_message` (lines 841-904): the authorization gate, then the
state dispatch.  `if user_id in user_states:` is a key-membership test,
so a user whose entry holds `None` (reset by `cancel`, `menu_main` or a
completed action) takes the state branch, where `None` — like any dict
value — equals none of the compared strings, and the chain falls
through without a reply; only a user with no entry at all reaches the
`else:` that forwards the text to the Gateway.  The
`waiting_for_project_note` comparison can only succeed for a plain
string value, and its body then subscripts that string with
`["project_id"]` — a `TypeError` escaping the handler. -/
def handle_message (env : Env) (st : BotState) (uid : Nat) (text : Str)
    (now : Nat) : BotState × Reply × List Op :=
  if uid ≠ env.authId then (st, .denied, [])
  else
    match st.userStates uid with
    | some v =>
        if pyEqStr v (str ("waiting_for_note")) then
          let r := create_note st.mgr now text none
          ({ st with mgr := r.2, userStates := setUS st.userStates uid none },
           .screen (.savedNote r.1.id), [.opCreateNote])
        else if pyEqStr v (str ("waiting_for_idea")) then
          let r := create_idea st.mgr now text
          ({ st with mgr := r.2, userStates := setUS st.userStates uid none },
           .screen (.savedIdea r.1.id), [.opCreateIdea])
        else if pyEqStr v (str ("waiting_for_project_name")) then
          let r := create_project st.mgr now text
          ({ st with mgr := r.2, userStates := setUS st.userStates uid none },
           .screen (.projectCreated r.1.title), [.opCreateProject, .opGetProjects])
        else if pyEqStr v (str ("waiting_for_project_note")) then
          (st, .crash, [])
        else (st, .noReply, [])
    | none =>
        match process_with_ai env text [] with
        | .ok r => (st, .message r, [.opGenerate])
        | .error _ => (st, .message (apology (is_english text)), [.opGenerate])

/-! Section: Concrete fixtures used by witnesses and concrete runs -/

/-- An environment whose authorized user is `7`, whose prompt files load,
and whose model endpoint always answers `"pong"`. -/
def demoEnv : Env :=
  { authId := 7, basePrompt := some [], respond := fun _ => some (str ("pong")) }

/-- Same authorized user, but the generation request always fails
(endpoint unreachable / unparsable response). -/
def failEnv : Env :=
  { authId := 7, basePrompt := some [], respond := fun _ => none }

/-- Same authorized user, but loading the base prompt raises. -/
def brokenPromptEnv : Env :=
  { authId := 7, basePrompt := none, respond := fun _ => none }

/-- Empty collection files. -/
def emptyMgr : ManagerState := { notes := [], projects := [], refined := [] }

/-- A freshly started process: no `user_states` entries, empty files. -/
def freshBot : BotState :=
  { userStates := fun _ => none, mgr := emptyMgr, editingBasePrompt := fun _ => false }

/-- A project whose id (= title) is `demo`. -/
def demoProject : Project := { id := str ("demo"), title := str ("demo"), created := 0 }

/-- A fresh process whose `projects.json` holds the `demo` project. -/
def projBot : BotState :=
  { freshBot with mgr := { emptyMgr with projects := [demoProject] } }

/-- A one-note collection used by the `update_note` witnesses. -/
def oneNoteMgr : ManagerState :=
  { notes := [{ id := str ("note1"), content := str ("old"), created := 0,
                project_id := none, updated := none, isIdea := false }],
    projects := [], refined := [] }

/-! Section: Theorems -/

/-- C8: The Store's `load` returns the empty collection on a missing
file and on malformed content, and — being a total function of the file
state — never raises to its caller. -/
theorem load_json_failure_empty {α : Type} (fs : FileState α)
    (h : fs = FileState.missing ∨ fs = FileState.malformed) :
    load_json fs = [] := by
  rcases h with h | h <;> subst h <;> rfl

theorem load_json_failure_empty_witness :
    load_json (FileState.missing : FileState Nat) = [] :=
  load_json_failure_empty _ (Or.inl rfl)

/-- C10: If the file write inside `update_base_prompt` fails, the call
returns `false`, but the in-memory base prompt has already been replaced,
so a subsequent `get_prompt` returns the new content while the persisted
copy still holds the old one. -/
theorem update_base_prompt_nonatomic (st : PromptState) (new_content : Str) :
    (update_base_prompt st new_content false).1 = false
    ∧ (update_base_prompt st new_content false).2.base_prompt.content = new_content
    ∧ (get_prompt (update_base_prompt st new_content false).2 []).content = new_content
    ∧ (update_base_prompt st new_content false).2.disk_base_prompt = st.disk_base_prompt := by
  refine ⟨rfl, rfl, ?_, rfl⟩
  simp [update_base_prompt, get_prompt]

/-- C4: `update_note` on an id absent from the notes collection
returns failure and leaves the whole manager state — notes and refined
collections included — unchanged. -/
theorem update_note_missing_id (st : ManagerState) (now : Nat) (nid c : Str)
    (h : findNote st.notes nid = none) :
    update_note st now nid c = (false, st) := by
  simp [update_note, h]

theorem update_note_missing_id_witness :
    update_note emptyMgr 0 (str ("note1")) (str ("x")) = (false, emptyMgr) :=
  update_note_missing_id emptyMgr 0 (str ("note1")) (str ("x")) rfl

/-- C7: Any event — text message or menu callback — from a user id
other than the configured authorized id gets the fixed denial reply,
leaves the state (the `user_states` map included) untouched, and
performs no Entity-Manager operation and no Gateway call. -/
theorem authorization_gate (env : Env) (st : BotState) (uid : Nat)
    (text data : Str) (now : Nat) (h : uid ≠ env.authId) :
    handle_message env st uid text now = (st, Reply.denied, [])
    ∧ handle_callback env st uid data now = (st, Reply.denied, []) := by
  constructor <;> simp [handle_message, handle_callback, h]

theorem authorization_gate_witness :
    handle_message demoEnv freshBot 8 (str ("hola")) 0 = (freshBot, Reply.denied, [])
    ∧ handle_callback demoEnv freshBot 8 (str ("cancel")) 0 = (freshBot, Reply.denied, []) :=
  authorization_gate demoEnv freshBot 8 (str ("hola")) (str ("cancel")) 0 (by decide)

/-- C6: A transport or response-parse failure of the generation
request is converted into the apology localized by the language
heuristic (`generate("hola")` with the endpoint unreachable yields the
Spanish apology).  But the claimed guarantee that no failure propagates
past the Gateway boundary is broken: if loading the base prompt raises,
the `except` handler reads `is_english_text` before its assignment and
an `UnboundLocalError` escapes `process_with_ai`. -/
theorem gateway_failure_localization :
    process_with_ai failEnv (str ("hola")) [] = Except.ok apologyEs
    ∧ process_with_ai brokenPromptEnv (str ("hola")) [] = Except.error () :=
  ⟨rfl, rfl⟩

/-- C5: The language detector counts known English versus known
Spanish function words in the lower-cased whitespace-tokenized text and
returns English exactly on strict majority of English words, Spanish
otherwise; `"the quick fox is here"` classifies English, `"el perro está
aquí"` classifies Spanish, and a text with no recognized word from
either set classifies Spanish. -/
theorem language_detector_spec :
    (∀ t : Str, is_english t = true ↔ spanishCount t < englishCount t)
    ∧ is_english (str ("the quick fox is here")) = true
    ∧ is_english (str ("el perro está aquí")) = false
    ∧ (∀ t : Str, englishCount t = 0 → spanishCount t = 0 → is_english t = false) := by
  refine ⟨fun t => by simp [is_english], by decide, by decide, fun t h1 h2 => ?_⟩
  simp [is_english, h1, h2]

theorem language_detector_spec_witness :
    is_english (str ("zzz")) = false :=
  language_detector_spec.2.2.2 (str ("zzz")) (by decide) (by decide)

/-- C1: The Idle free-text path only works for a user with no
`user_states` entry: such a user's message is forwarded to the Gateway
and answered with the generated text (third conjunct: with the apology
on Gateway failure).  A user whose state was reset to Idle by `cancel`
(entry present, value `None`) falls through every branch of the state
dispatch — no reply loops back and no Gateway call is made — because
`if user_id in user_states:` tests key membership, not pending state. -/
theorem idle_message_after_cancel_dropped :
    (handle_message demoEnv
        (handle_callback demoEnv freshBot 7 (str ("cancel")) 0).1 7 (str ("hola")) 1
      = ((handle_callback demoEnv freshBot 7 (str ("cancel")) 0).1, Reply.noReply, []))
    ∧ handle_message demoEnv freshBot 7 (str ("hola")) 1
      = (freshBot, Reply.message (str ("pong")), [Op.opGenerate])
    ∧ handle_message failEnv freshBot 7 (str ("hola")) 1
      = (freshBot, Reply.message apologyEs, [Op.opGenerate]) :=
  ⟨rfl, rfl, rfl⟩

/-- C2: Dispatching `new_project_note_demo` (an existing project)
stores the pending state as the dict
`{"state": "waiting_for_project_note", "project_id": "demo"}`, but
`handle_message` compares that dict against the plain string
`"waiting_for_project_note"` — never equal — so the following free text
`"task list"` creates no note, sends no reply, and leaves the pending
state in place instead of resetting it to Idle. -/
theorem project_note_flow_creates_nothing :
    ((handle_callback demoEnv projBot 7 (str ("new_project_note_demo")) 0).1.userStates 7
      = some (some (PyVal.pdict (str ("waiting_for_project_note"))
          (some (str ("demo"))) none none)))
    ∧ (handle_message demoEnv
        (handle_callback demoEnv projBot 7 (str ("new_project_note_demo")) 0).1
        7 (str ("task list")) 1
      = ((handle_callback demoEnv projBot 7 (str ("new_project_note_demo")) 0).1,
         Reply.noReply, []))
    ∧ (handle_callback demoEnv projBot 7 (str ("new_project_note_demo")) 0).1.mgr.notes = [] :=
  ⟨rfl, rfl, rfl⟩

/-- Mutating the first record matching `nid` through an id-preserving
update commutes with the first-match lookup. -/
theorem findNote_updateFirst (notes : List Note) (nid : Str) (f : Note → Note)
    (hf : ∀ n, (f n).id = n.id) :
    findNote (updateFirst notes nid f) nid = (findNote notes nid).map f := by
  induction notes with
  | nil => rfl
  | cons n rest ih =>
      by_cases h : n.id = nid
      · simp [updateFirst, findNote, h, hf]
      · simp [updateFirst, findNote, h, ih]

/-- Shape of `update_note` on a found id. -/
theorem update_note_found (st : ManagerState) (now : Nat) (nid c : Str)
    (orig : Note) (h : findNote st.notes nid = some orig) :
    update_note st now nid c =
      (true,
       { st with
         refined := st.refined ++
           [{ id := nid, original_content := orig.content, refined_content := c,
              created := now, project_id := orig.project_id }],
         notes := updateFirst st.notes nid
           (fun n => { n with content := c, updated := some now }) }) := by
  simp [update_note, h]

/-- C3: On an existing id, `update_note` overwrites the note's
content, stamps `updated`, and appends exactly one `RefinedNote` whose
`original_content` is the pre-update content; a second `update_note` on
the same id appends a second, independent `RefinedNote` (snapshotting
the intermediate content), so refinement history is additive and never
overwritten. -/
theorem update_note_refinement_history (st : ManagerState) (now1 now2 : Nat)
    (nid c1 c2 : Str) (orig : Note) (h : findNote st.notes nid = some orig) :
    (update_note st now1 nid c1).1 = true
    ∧ findNote (update_note st now1 nid c1).2.notes nid
        = some { orig with content := c1, updated := some now1 }
    ∧ (update_note st now1 nid c1).2.refined
        = st.refined ++
          [{ id := nid, original_content := orig.content, refined_content := c1,
             created := now1, project_id := orig.project_id }]
    ∧ (update_note (update_note st now1 nid c1).2 now2 nid c2).2.refined
        = st.refined ++
          [{ id := nid, original_content := orig.content, refined_content := c1,
             created := now1, project_id := orig.project_id },
           { id := nid, original_content := c1, refined_content := c2,
             created := now2, project_id := orig.project_id }] := by
  have hf : ∀ n : Note,
      (({ n with content := c1, updated := some now1 } : Note)).id = n.id :=
    fun n => rfl
  have h1 := update_note_found st now1 nid c1 orig h
  have hfind2 :
      findNote (update_note st now1 nid c1).2.notes nid
        = some { orig with content := c1, updated := some now1 } := by
    rw [h1]
    show findNote (updateFirst st.notes nid
      (fun n => { n with content := c1, updated := some now1 })) nid = _
    rw [findNote_updateFirst st.notes nid
      (fun n => { n with content := c1, updated := some now1 }) hf, h]
    rfl
  have h2 := update_note_found (update_note st now1 nid c1).2 now2 nid c2 _ hfind2
  refine ⟨by rw [h1], hfind2, by rw [h1], ?_⟩
  rw [h2]
  simp [h1, List.append_assoc]

theorem update_note_refinement_history_witness :
    (update_note (update_note oneNoteMgr 1 (str ("note1")) (str ("mid"))).2
        2 (str ("note1")) (str ("new"))).2.refined
      = [{ id := str ("note1"), original_content := str ("old"),
           refined_content := str ("mid"), created := 1, project_id := none },
         { id := str ("note1"), original_content := str ("mid"),
           refined_content := str ("new"), created := 2, project_id := none }] :=
  (update_note_refinement_history oneNoteMgr 1 2 (str ("note1")) (str ("mid"))
    (str ("new"))
    { id := str ("note1"), content := str ("old"), created := 0,
      project_id := none, updated := none, isIdea := false } rfl).2.2.2

/-! Section: Id allocation: decimal round trip and maximum bound -/

theorem natDigitsAux_zero (fuel : Nat) : natDigitsAux fuel 0 = [] := by
  cases fuel <;> simp [natDigitsAux]

theorem chVal_digitChar (d : Nat) (h : d < 10) : chVal (Nat.digitChar d) = d := by
  interval_cases d <;> rfl

theorem isDigitCh_digitChar (d : Nat) (h : d < 10) :
    isDigitCh (Nat.digitChar d) = true := by
  interval_cases d <;> rfl

theorem valNat_append_digit (l : Str) (c : Char) :
    valNat (l ++ [c]) = 10 * valNat l + chVal c := by
  simp [valNat, List.foldl_append]

/-- For `1 ≤ n ≤ fuel`, the rendered digit string is nonempty, consists
of digit characters, and evaluates back to `n`. -/
theorem natDigitsAux_spec : ∀ (fuel n : Nat), 1 ≤ n → n ≤ fuel →
    natDigitsAux fuel n ≠ []
    ∧ (natDigitsAux fuel n).all isDigitCh = true
    ∧ valNat (natDigitsAux fuel n) = n := by
  intro fuel
  induction fuel with
  | zero => intro n h1 h2; omega
  | succ f ih =>
      intro n h1 h2
      have hn : ¬ n = 0 := by omega
      simp only [natDigitsAux, if_neg hn]
      by_cases hlt : n < 10
      · have hq : n / 10 = 0 := Nat.div_eq_of_lt hlt
        have hm : n % 10 = n := Nat.mod_eq_of_lt hlt
        rw [hq, natDigitsAux_zero, hm]
        refine ⟨by simp, ?_, ?_⟩
        · simp [isDigitCh_digitChar n hlt]
        · show valNat ([] ++ [Nat.digitChar n]) = n
          rw [valNat_append_digit, chVal_digitChar n hlt]
          simp [valNat]
      · have hq1 : 1 ≤ n / 10 := (Nat.one_le_div_iff (by norm_num)).mpr (by omega)
        have hlt' : n / 10 < n := Nat.div_lt_self (by omega) (by norm_num)
        have hqf : n / 10 ≤ f := by omega
        obtain ⟨hne, hall, hval⟩ := ih (n / 10) hq1 hqf
        have hd : n % 10 < 10 := Nat.mod_lt _ (by norm_num)
        refine ⟨by simp, ?_, ?_⟩
        · simp [List.all_append, hall, isDigitCh_digitChar _ hd]
        · rw [valNat_append_digit, hval, chVal_digitChar _ hd]
          omega

theorem digitsVal?_natDigits (n : Nat) (h : 1 ≤ n) :
    digitsVal? (natDigits n) = some n := by
  have hn0 : ¬ n = 0 := by omega
  obtain ⟨hne, hall, hval⟩ := natDigitsAux_spec n n h le_rfl
  have hemp : (natDigitsAux n n).isEmpty = false := by
    cases hx : natDigitsAux n n
    · exact absurd hx hne
    · rfl
  simp [natDigits, if_neg hn0, digitsVal?, hemp, hall, hval]

theorem pyInt?_natDigits (n : Nat) (h : 1 ≤ n) :
    pyInt? (natDigits n) = some (n : Int) := by
  have hn0 : ¬ n = 0 := by omega
  have hd := digitsVal?_natDigits n h
  obtain ⟨hne, hall, hval⟩ := natDigitsAux_spec n n h le_rfl
  have hx : natDigits n = natDigitsAux n n := by simp [natDigits, if_neg hn0]
  cases hy : natDigitsAux n n with
  | nil => exact absurd hy hne
  | cons c rest =>
      have hc : isDigitCh c = true := by
        rw [hy, List.all_cons] at hall
        exact (Bool.and_eq_true_iff.mp hall).1
      have hcne : ¬ (c = '-') := by
        intro hceq
        rw [hceq] at hc
        exact absurd hc (by decide)
      rw [hx, hy] at hd ⊢
      simp [pyInt?, hcne, hd]

theorem nextIdStep_ge (pfx : Str) (acc : Int) (nt : Note) :
    acc ≤ nextIdStep pfx acc nt := by
  unfold nextIdStep
  by_cases hs : strStarts nt.id pfx = true
  · cases hp : pyInt? (nt.id.drop pfx.length) <;> simp [hs, hp]
  · simp [hs]

theorem foldl_nextIdStep_ge (pfx : Str) :
    ∀ (notes : List Note) (acc : Int), acc ≤ notes.foldl (nextIdStep pfx) acc := by
  intro notes
  induction notes with
  | nil => intro acc; simp
  | cons nt rest ih =>
      intro acc
      rw [List.foldl_cons]
      exact le_trans (nextIdStep_ge pfx acc nt) (ih _)

theorem next_id_max_nonneg (pfx : Str) (notes : List Note) :
    0 ≤ next_id_max pfx notes :=
  foldl_nextIdStep_ge pfx notes 0

theorem foldl_nextIdStep_bound (pfx : Str) :
    ∀ (notes : List Note) (acc : Int) (nt : Note), nt ∈ notes →
      strStarts nt.id pfx = true →
      ∀ k : Int, pyInt? (nt.id.drop pfx.length) = some k →
      k ≤ notes.foldl (nextIdStep pfx) acc := by
  intro notes
  induction notes with
  | nil => intro acc nt h; simp at h
  | cons hd rest ih =>
      intro acc nt hmem hs k hp
      rw [List.foldl_cons]
      rcases List.mem_cons.mp hmem with heq | hmem'
      · subst heq
        refine le_trans ?_ (foldl_nextIdStep_ge pfx rest _)
        simp [nextIdStep, hs, hp]
      · exact ih _ nt hmem' hs k hp

/-- The id `_get_next_id` returns collides with no id already stored. -/
theorem get_next_id_fresh (pfx : Str) (notes : List Note) (nt : Note)
    (hmem : nt ∈ notes) : nt.id ≠ get_next_id pfx notes := by
  intro heq
  have hm0 : 0 ≤ next_id_max pfx notes := next_id_max_nonneg pfx notes
  have hpos : ¬ (next_id_max pfx notes + 1 < 0) := by omega
  rw [get_next_id, intRepr, if_neg hpos] at heq
  have hKi : ((next_id_max pfx notes + 1).toNat : Int) = next_id_max pfx notes + 1 :=
    Int.toNat_of_nonneg (by omega)
  have hK1 : 1 ≤ (next_id_max pfx notes + 1).toNat := by omega
  have hs : strStarts nt.id pfx = true := by
    rw [heq]
    simp [strStarts, List.take_left]
  have hdrop : nt.id.drop pfx.length = natDigits (next_id_max pfx notes + 1).toNat := by
    rw [heq]
    exact List.drop_left _ _
  have hp : pyInt? (nt.id.drop pfx.length)
      = some (((next_id_max pfx notes + 1).toNat : Int)) := by
    rw [hdrop]
    exact pyInt?_natDigits _ hK1
  have hb := foldl_nextIdStep_bound pfx notes 0 nt hmem hs _ hp
  rw [show notes.foldl (nextIdStep pfx) 0 = next_id_max pfx notes from rfl] at hb
  omega

/-- The note returned by `create_note` carries an id absent from the
pre-state. -/
theorem create_note_fresh (st : ManagerState) (now : Nat) (c : Str)
    (pid : Option Str) : (create_note st now c pid).1.id ∉ st.notes.map Note.id := by
  intro hmem
  rcases List.mem_map.mp hmem with ⟨nt, hnt, hid⟩
  exact get_next_id_fresh _ st.notes nt hnt hid

/-- Ids returned by a run of `create_note` calls are all absent from the
initial state. -/
theorem run_creates_not_mem : ∀ (reqs : List CreateReq) (st : ManagerState) (i : Str),
    i ∈ (run_creates st reqs).1 → i ∉ st.notes.map Note.id := by
  intro reqs
  induction reqs with
  | nil => intro st i h; simp [run_creates] at h
  | cons req rest ih =>
      intro st i h
      obtain ⟨now, c, pid⟩ := req
      simp only [run_creates, List.mem_cons] at h
      rcases h with h | h
      · subst h
        exact create_note_fresh st now c pid
      · intro hmem
        refine ih ((create_note st now c pid).2) i h ?_
        show i ∈ ((st.notes ++ [(create_note st now c pid).1]).map Note.id)
        rw [List.map_append]
        exact List.mem_append_left _ hmem

/-- C9: Along any sequence of `create_note` calls — with or without a
`project_id`, from any starting collection — the returned note ids are
pairwise distinct. -/
theorem create_note_ids_pairwise_distinct (st : ManagerState)
    (reqs : List CreateReq) :
    List.Pairwise (fun a b => a ≠ b) (run_creates st reqs).1 := by
  induction reqs generalizing st with
  | nil => simp [run_creates]
  | cons req rest ih =>
      obtain ⟨now, c, pid⟩ := req
      show List.Pairwise (fun a b => a ≠ b)
        ((create_note st now c pid).1.id ::
          (run_creates (create_note st now c pid).2 rest).1)
      have hmemHead : (create_note st now c pid).1.id
          ∈ ((create_note st now c pid).2.notes.map Note.id) := by
        show _ ∈ ((st.notes ++ [(create_note st now c pid).1]).map Note.id)
        rw [List.map_append]
        exact List.mem_append_right _ (by simp)
      refine List.Pairwise.cons ?_ (ih _)
      intro i hi heq
      exact run_creates_not_mem rest _ i hi (heq ▸ hmemHead)

end CortexIA
